import Mathlib

/-!
Shallow embedding of the GenAI_Fantasy_Drawing repository.

Sources embedded:
* `src/client/components/Canvas.tsx` — the drawing surface: mount effect
  (lines 14-31), style effect (33-38), `getCoords` (40-51), `startDrawing`
  (53-60), `draw` (62-69), `stopDrawing` (71-75), `clearCanvas` (104-114),
  `getCanvasData` (115-151).
* `src/client/types.ts` bundle — `App.handleGenerate` (lines 91-115 of the
  bundled App component).
* `src/unnamed/part_000` — the Express relay, `app.post("/api/generate")`
  (lines 16-24).

Modelling conventions: JS numbers are embedded as `ℚ` (the code performs no
operation whose result depends on float rounding at the granularity the
claims speak about); the canvas raster is abstracted in two complementary
ways — a list of painted samples for the clearing/painting claims, and an
abstract sampling function `(ℚ × ℚ) → RGBA` for the export-compositing
claim.  The context carries the current path accumulated since
`beginPath()`, and each `stroke()` call rasterizes the whole current path
with the style in force at that call (one painted sample per path point,
at device coordinates through the context's scale transform, most recent
paint first) — so a style change in the middle of an open path repaints
that path's earlier points on the next `stroke()`.  Compositing
uses premultiplied-alpha source-over, the 2D context's default blend mode.
Browser primitives that are not repository code (`toDataURL`,
`devicePixelRatio`, PNG encoding) are modelled from their documented
behaviour: `toDataURL("image/png")` yields a string with the fixed head
`"data:image/png;base64,"` followed by an encoder-produced payload, and the
encoder is kept abstract as a function parameter.  Every operation is a
total Lean function: the embedded code never throws, mirroring the source,
which guards each operation on the presence of its canvas/context.
-/

namespace FantasyDraw

/-- JS `Math.round`: round half toward positive infinity. -/
def jsRound (q : ℚ) : ℤ := ⌊q + 1 / 2⌋

/-- A colour in premultiplied-alpha RGBA form, components rational. -/
structure RGBA where
  r : ℚ
  g : ℚ
  b : ℚ
  a : ℚ
deriving DecidableEq

/-- The fully transparent colour: initial content of a fresh canvas. -/
def transparent : RGBA := ⟨0, 0, 0, 0⟩

/-- Opaque black, the `fillStyle = "#000000"` used by the export. -/
def opaqueBlack : RGBA := ⟨0, 0, 0, 1⟩

/-- Source-over compositing for premultiplied-alpha colours, the 2D
context's default `globalCompositeOperation`. -/
def srcOver (src dst : RGBA) : RGBA :=
  ⟨src.r + dst.r * (1 - src.a), src.g + dst.g * (1 - src.a),
   src.b + dst.b * (1 - src.a), src.a + dst.a * (1 - src.a)⟩

/-- One rasterized stroke sample: device-space position plus the stroke
style that was in force when it was painted (`Canvas.tsx` line 65-66). -/
structure PaintedPoint where
  pos : ℚ × ℚ
  color : String
  width : ℚ
deriving DecidableEq

/-- The `<canvas>` element: backing-store size (`canvas.width/height`),
its bounding client rect offset, and the rasterized ink. -/
structure CanvasEl where
  width : ℚ
  height : ℚ
  rectLeft : ℚ
  rectTop : ℚ
  buffer : List PaintedPoint
deriving DecidableEq

/-- The 2D rendering context: the scale transform applied at mount
(`context.scale(dpr, dpr)`, line 27), the stroke style, and the current
path — the points accumulated by `moveTo`/`lineTo` since the last
`beginPath()`, most recent first. -/
structure Ctx2D where
  scale : ℚ
  strokeStyle : String
  lineWidth : ℚ
  lineCap : String
  lineJoin : String
  path : List (ℚ × ℚ)
deriving DecidableEq

/-- The component state of `CanvasComponent`: `canvasRef`, `contextRef`,
`isDrawing`, `isCanvasEmpty` (lines 9-12), plus the environment's
`window.devicePixelRatio`. -/
structure CanvasState where
  canvas : Option CanvasEl
  context : Option Ctx2D
  isDrawing : Bool
  isCanvasEmpty : Bool
  devicePixelRatio : ℚ
deriving DecidableEq

/-- `window.devicePixelRatio || 1` (lines 19, 110, 122): a falsy (zero)
ratio falls back to 1. -/
def effDpr (st : CanvasState) : ℚ :=
  if st.devicePixelRatio = 0 then 1 else st.devicePixelRatio

/-- Mount effect, `Canvas.tsx` lines 14-31: if the canvas ref is empty the
effect returns with no context; otherwise the backing store is sized to
rect × DPR, and if `getContext` yields a context it is scaled by DPR with
round cap/join and stored.  `ctxAvail` models whether `getContext("2d")`
returns a context. -/
def mount (canvasPresent : Bool) (rectWidth rectHeight rectLeft rectTop : ℚ)
    (devicePixelRatio : ℚ) (ctxAvail : Bool) : CanvasState :=
  if canvasPresent = false then
    ⟨none, none, false, true, devicePixelRatio⟩
  else
    let dpr := if devicePixelRatio = 0 then 1 else devicePixelRatio
    let cv : CanvasEl := ⟨rectWidth * dpr, rectHeight * dpr, rectLeft, rectTop, []⟩
    if ctxAvail = false then
      ⟨some cv, none, false, true, devicePixelRatio⟩
    else
      ⟨some cv, some ⟨dpr, "#000000", 1, "round", "round", []⟩, false, true,
        devicePixelRatio⟩

/-- A pointer event's coordinate payload: a mouse event's client position,
or a touch event's (possibly empty) list of touch points. -/
inductive PointerInput
  | mouse (clientX clientY : ℚ)
  | touch (touches : List (ℚ × ℚ))
deriving DecidableEq

/-- `getCoords`, `Canvas.tsx` lines 40-51: with no canvas, or a touch event
carrying no touch points, the origin is returned; otherwise the client
position of the mouse (or first touch) minus the bounding-rect offset. -/
def getCoords (canvas : Option CanvasEl) (event : PointerInput) : ℚ × ℚ :=
  match canvas with
  | none => (0, 0)
  | some cv =>
    match event with
    | .mouse clientX clientY => (clientX - cv.rectLeft, clientY - cv.rectTop)
    | .touch touches =>
      match touches with
      | t :: _ => (t.1 - cv.rectLeft, t.2 - cv.rectTop)
      | [] => (0, 0)

/-- Rasterize a list of stroke samples onto the canvas bitmap (one
`stroke()` call over the current path), most recent paint first; painting
onto an absent canvas is a no-op. -/
def paintPath (canvas : Option CanvasEl) (pps : List PaintedPoint) : Option CanvasEl :=
  match canvas with
  | none => none
  | some cv => some { cv with buffer := pps ++ cv.buffer }

/-- `startDrawing`, lines 53-60: bail out without a context; otherwise
`beginPath(); moveTo(x, y)` — the current path is reset to the single
start point — and set `isDrawing`. -/
def startDrawing (event : PointerInput) (st : CanvasState) : CanvasState :=
  match st.context with
  | none => st
  | some c =>
    { st with
        context := some { c with path := [getCoords st.canvas event] },
        isDrawing := true }

/-- `draw`, lines 62-69: bail out when not drawing or without a context;
otherwise `lineTo(x, y); stroke()` — the point extends the current path
and the `stroke()` call rasterizes the whole current path at device
coordinates (through the scale transform) with the stroke style current
at this call — and clear the empty flag. -/
def draw (event : PointerInput) (st : CanvasState) : CanvasState :=
  if st.isDrawing = false then st
  else
    match st.context with
    | none => st
    | some c =>
      let p := getCoords st.canvas event
      let newPath := p :: c.path
      { st with
          context := some { c with path := newPath },
          canvas := paintPath st.canvas
            (newPath.map fun q => ⟨(c.scale * q.1, c.scale * q.2), c.strokeStyle, c.lineWidth⟩),
          isCanvasEmpty := false }

/-- `stopDrawing`, lines 71-75: bail out without a context; otherwise
`closePath()` and clear `isDrawing`.  The ink and the empty flag are
untouched; the closed subpath is kept but is never stroked again, because
every later stroke session starts with the `beginPath()` of
`startDrawing`. -/
def stopDrawing (st : CanvasState) : CanvasState :=
  match st.context with
  | none => st
  | some _ => { st with isDrawing := false }

/-- Style effect, lines 33-38: when the context exists, write the new
stroke colour and width into it; already-rasterized ink is untouched. -/
def styleUpdate (color : String) (lineWidth : ℚ) (st : CanvasState) : CanvasState :=
  match st.context with
  | none => st
  | some c => { st with context := some { c with strokeStyle := color, lineWidth := lineWidth } }

/-- The pointer events wired up in lines 81-89: `mousedown`/`touchstart`
run `startDrawing`, `mousemove`/`touchmove` run `draw`, and
`mouseup`/`mouseleave`/`touchend`/`touchcancel` run `stopDrawing`. -/
inductive PEvent
  | down (input : PointerInput)
  | move (input : PointerInput)
  | up
  | leave
  | cancel
deriving DecidableEq

/-- Dispatch one pointer event to its handler. -/
def step (e : PEvent) (st : CanvasState) : CanvasState :=
  match e with
  | .down input => startDrawing input st
  | .move input => draw input st
  | .up => stopDrawing st
  | .leave => stopDrawing st
  | .cancel => stopDrawing st

/-- Process a sequence of pointer events in arrival order. -/
def runEvents : List PEvent → CanvasState → CanvasState
  | [], st => st
  | e :: es, st => runEvents es (step e st)

/-- Whether a pointer event is a move event. -/
def isMoveEvent : PEvent → Bool
  | .move _ => true
  | _ => false

/-- Whether, along a run of a pointer-event sequence, some move event is
delivered while `isDrawing` is set. -/
def movedWhileActive : CanvasState → List PEvent → Bool
  | _, [] => false
  | st, e :: es => (isMoveEvent e && st.isDrawing) || movedWhileActive (step e st) es

/-- `context.clearRect(x, y, w, h)`: erase the device pixels of the
axis-aligned rectangle, whose user-space corners pass through the
context's scale transform. -/
def clearRect (scale x y w h : ℚ) (buf : List PaintedPoint) : List PaintedPoint :=
  buf.filter fun pp =>
    !(decide (scale * x ≤ pp.pos.1 ∧ pp.pos.1 < scale * (x + w) ∧
              scale * y ≤ pp.pos.2 ∧ pp.pos.2 < scale * (y + h)))

/-- `clearCanvas`, lines 105-114: when both canvas and context exist,
`clearRect(0, 0, canvas.width / dpr, canvas.height / dpr)` and set the
empty flag; otherwise nothing happens. -/
def clearCanvas (st : CanvasState) : CanvasState :=
  match st.canvas, st.context with
  | some cv, some c =>
    { st with
        canvas := some { cv with
          buffer := clearRect c.scale 0 0 (cv.width / effDpr st) (cv.height / effDpr st) cv.buffer },
        isCanvasEmpty := true }
  | _, _ => st

/-- The ink currently rasterized on the component's canvas. -/
def bufferOf (st : CanvasState) : List PaintedPoint :=
  match st.canvas with
  | none => []
  | some cv => cv.buffer

/-- `MAX_DIMENSION`, line 119. -/
def maxDimension : ℚ := 1024

/-- The export's target-size computation, lines 119-137: display-space
size is the backing size divided by the DPR; when either dimension exceeds
the bound, the larger becomes the bound and the other is `Math.round`ed
after scaling by the same ratio. -/
def targetDims (width height : ℚ) : ℚ × ℚ :=
  if width > maxDimension ∨ height > maxDimension then
    if width > height then
      (maxDimension, (jsRound (height * maxDimension / width) : ℚ))
    else
      ((jsRound (width * maxDimension / height) : ℚ), maxDimension)
  else (width, height)

/-- The two paint operations the export performs on the fresh temp canvas,
lines 145-148, in program order: fill the whole target rect (with the
opaque black `fillStyle` set on line 145), then composite the source
canvas scaled to the target size. -/
inductive DrawOp
  | fillRect (x y w h : ℚ)
  | drawImage (dw dh : ℚ)
deriving DecidableEq

/-- The export's operation sequence: black fill first, composite second. -/
def exportOps (tw th : ℚ) : List DrawOp := [.fillRect 0 0 tw th, .drawImage tw th]

/-- Membership of a point in an axis-aligned half-open rectangle. -/
def inRect (x y w h : ℚ) (p : ℚ × ℚ) : Bool :=
  decide (x ≤ p.1 ∧ p.1 < x + w ∧ y ≤ p.2 ∧ p.2 < y + h)

/-- Apply one temp-canvas paint operation to an image; `sample` is the
source canvas raster resampled to the target size. -/
def applyOp (sample : (ℚ × ℚ) → RGBA) (op : DrawOp) (img : (ℚ × ℚ) → RGBA) :
    (ℚ × ℚ) → RGBA :=
  fun p =>
    match op with
    | .fillRect x y w h => if inRect x y w h p then srcOver opaqueBlack (img p) else img p
    | .drawImage dw dh => if inRect 0 0 dw dh p then srcOver (sample p) (img p) else img p

/-- Apply a list of paint operations in order. -/
def renderOps (sample : (ℚ × ℚ) → RGBA) (ops : List DrawOp) (img : (ℚ × ℚ) → RGBA) :
    (ℚ × ℚ) → RGBA :=
  match ops with
  | [] => img
  | op :: rest => renderOps sample rest (applyOp sample op img)

/-- The content of the freshly created temp canvas (initially transparent)
after the export's paint operations. -/
def tempCanvasImage (sample : (ℚ × ℚ) → RGBA) (tw th : ℚ) : (ℚ × ℚ) → RGBA :=
  renderOps sample (exportOps tw th) (fun _ => transparent)

/-- `getCanvasData`, lines 115-151.  `tempCtxAvail` models whether the temp
canvas's `getContext("2d")` yields a context (line 142-143); `encodePNG`
models the browser's PNG encoder, kept abstract; `sample` is the source
raster resampled to target size (the `drawImage` source).  `toDataURL` is
modelled from its documented behaviour as the fixed PNG data-URL head
followed by the encoded payload. -/
def getCanvasData (tempCtxAvail : Bool) (encodePNG : ((ℚ × ℚ) → RGBA) → String)
    (sample : (ℚ × ℚ) → RGBA) (st : CanvasState) : Option String :=
  if st.isCanvasEmpty then none
  else
    match st.canvas with
    | none => none
    | some cv =>
      let width := cv.width / effDpr st
      let height := cv.height / effDpr st
      let td := targetDims width height
      if tempCtxAvail = false then none
      else some ("data:image/png;base64," ++ encodePNG (tempCanvasImage sample td.1 td.2))

/-- The pixel dimensions of the temp canvas an export would draw into
(lines 119-141): the same computation that sizes `tempCanvas`. -/
def getCanvasDataDims (st : CanvasState) : Option (ℚ × ℚ) :=
  if st.isCanvasEmpty then none
  else
    match st.canvas with
    | none => none
    | some cv => some (targetDims (cv.width / effDpr st) (cv.height / effDpr st))

/-- Outcome of one `handleGenerate` invocation in the App component. -/
inductive GenOutcome
  | noCanvas
  | showError (message : String)
  | request (payload : String)
deriving DecidableEq

/-- `App.handleGenerate` (bundle lines 91-115) up to its first network
interaction: bail out without a canvas ref; with a null export show the
empty-canvas message and stop; otherwise strip the data-URL head at the
first comma and issue the network request with the payload. -/
def handleGenerate (canvasRefPresent : Bool) (dataUrl : Option String) : GenOutcome :=
  if canvasRefPresent = false then .noCanvas
  else
    match dataUrl with
    | none => .showError "The canvas is empty. Draw something first!"
    | some url => .request ((url.splitOn ",").getD 1 "")

/-- Body of a relay response: the success envelope or the error envelope. -/
inductive RelayBody
  | output (text : String)
  | error (message : String)
deriving DecidableEq

/-- An HTTP response of the relay: status code and JSON body. -/
structure RelayResponse where
  status : Nat
  body : RelayBody
deriving DecidableEq

/-- `app.post("/api/generate")`, `part_000` lines 16-24.  `generateContent`
models `model.generateContent` followed by `result.response.text()`: it
either yields the model's text or throws with a message.  The second
component of the result is the trace of outbound upstream calls the
handler makes, in order: the body performs exactly one, forwarding the
prompt verbatim, in both the success and the failure path (no retry).  An
uncaught status is impossible: the whole body sits in the `try`. -/
def apiGenerate (generateContent : String → Except String String) (prompt : String) :
    RelayResponse × List String :=
  match generateContent prompt with
  | .ok text => (⟨200, .output text⟩, [prompt])
  | .error message => (⟨500, .error message⟩, [prompt])

/-! Concrete fixtures used by the witness theorems. -/

/-- A concrete painted point inside a 100 × 100 canvas. -/
def ppW : PaintedPoint := ⟨(3, 4), "#FFFFFF", 5⟩

/-- A concrete 100 × 100 canvas with no ink. -/
def cvW : CanvasEl := ⟨100, 100, 0, 0, []⟩

/-- A concrete 100 × 100 canvas holding one painted point. -/
def cvInk : CanvasEl := ⟨100, 100, 0, 0, [ppW]⟩

/-- The colour of the first painted sample at a device position in a paint
list ordered most recent first. -/
def firstColorAt : List PaintedPoint → (ℚ × ℚ) → Option String
  | [], _ => none
  | pp :: rest, pos => if pp.pos = pos then some pp.color else firstColorAt rest pos

/-- The colour of the most recently painted ink sample at a device
position, if any: later paints cover earlier ones. -/
def visibleColorAt (st : CanvasState) (pos : ℚ × ℚ) : Option String :=
  firstColorAt (bufferOf st) pos

/-- A concrete context with unit scale and an empty current path. -/
def ctxW : Ctx2D := ⟨1, "#FFFFFF", 5, "round", "round", []⟩

/-- A freshly mounted, empty state at DPR 1. -/
def stW : CanvasState := ⟨some cvW, some ctxW, false, true, 1⟩

/-- A state with ink present at DPR 1. -/
def stInk : CanvasState := ⟨some cvInk, some ctxW, false, false, 1⟩

/-- A state whose context is absent. -/
def stNoCtx : CanvasState := ⟨some cvW, none, false, true, 1⟩

/-- A state with ink whose display size exceeds the export bound. -/
def stBig : CanvasState := ⟨some ⟨2048, 1024, 0, 0, [ppW]⟩, some ctxW, false, false, 1⟩

/-- A concrete PNG encoder stand-in returning a fixed payload. -/
def encW : ((ℚ × ℚ) → RGBA) → String := fun _ => "PAYLOAD"

/-- A concrete source sampling function: opaque white everywhere. -/
def sampleW : (ℚ × ℚ) → RGBA := fun _ => ⟨1, 1, 1, 1⟩

/-- A concrete pointer-event sequence: one complete stroke. -/
def esW : List PEvent := [.down (.mouse 1 1), .move (.mouse 2 2), .up]

/-- A concrete state in the middle of a stroke: pen down at (1, 1), moved
to (2, 2), pen still down — positions (1, 1) and (2, 2) already carry
white ink. -/
def stMid : CanvasState := runEvents [.down (.mouse 1 1), .move (.mouse 2 2)] stW

/-- A concrete point inside the 100 × 100 export target. -/
def ptW : ℚ × ℚ := (5, 5)

/-- A concrete upstream model that always throws `Error("quota exceeded")`. -/
def quotaFail : String → Except String String := fun _ => Except.error "quota exceeded"

/-- The data string `stInk` exports through `encW`. -/
def sInk : String := "data:image/png;base64,PAYLOAD"

/-! Helper lemmas. -/

lemma effDpr_ne_zero (st : CanvasState) : effDpr st ≠ 0 := by
  unfold effDpr
  split
  · norm_num
  · assumption

lemma getCanvasData_of_empty (avail : Bool) (encodePNG : ((ℚ × ℚ) → RGBA) → String)
    (sample : (ℚ × ℚ) → RGBA) (st : CanvasState) (h : st.isCanvasEmpty = true) :
    getCanvasData avail encodePNG sample st = none := by
  simp [getCanvasData, h]

/-- Claim C3: with the "has ink" flag false, the export returns the "no
data" result (`null`), not an encoded image; being a total Lean function of
the state it never throws. -/
theorem c3_export_empty_returns_none (st : CanvasState) (h : st.isCanvasEmpty = true)
    (avail : Bool) (encodePNG : ((ℚ × ℚ) → RGBA) → String) (sample : (ℚ × ℚ) → RGBA) :
    getCanvasData avail encodePNG sample st = none :=
  getCanvasData_of_empty avail encodePNG sample st h

/-- Witness for C3 at a concrete freshly mounted state. -/
theorem c3_export_empty_returns_none_witness :
    getCanvasData true encW sampleW stW = none :=
  c3_export_empty_returns_none stW rfl true encW sampleW

lemma jsRound_coe (z : ℤ) : jsRound (z : ℚ) = z := by
  unfold jsRound
  rw [Int.floor_eq_iff]
  constructor
  · norm_num
  · norm_num

lemma getCanvasDataDims_of_ink (st : CanvasState) (cv : CanvasEl)
    (hc : st.canvas = some cv) (hink : st.isCanvasEmpty = false) :
    getCanvasDataDims st = some (targetDims (cv.width / effDpr st) (cv.height / effDpr st)) := by
  simp [getCanvasDataDims, hink, hc]

/-- Claim C2: with ink present, the export target keeps the display-space
dimensions exactly when both are at most 1024; otherwise the larger
dimension becomes exactly 1024 and the smaller is scaled by the same ratio
and rounded to the nearest integer. -/
theorem c2_export_dimensions (st : CanvasState) (cv : CanvasEl)
    (hc : st.canvas = some cv) (hink : st.isCanvasEmpty = false)
    (w h : ℚ) (hw : w = cv.width / effDpr st) (hh : h = cv.height / effDpr st) :
    (w ≤ 1024 ∧ h ≤ 1024 → getCanvasDataDims st = some (w, h)) ∧
    (1024 < w ∧ h ≤ w → getCanvasDataDims st = some (1024, (jsRound (h * 1024 / w) : ℚ))) ∧
    (1024 < h ∧ w ≤ h → getCanvasDataDims st = some ((jsRound (w * 1024 / h) : ℚ), 1024)) := by
  have hd : getCanvasDataDims st = some (targetDims w h) := by
    rw [hw, hh]
    exact getCanvasDataDims_of_ink st cv hc hink
  refine ⟨?_, ?_, ?_⟩
  · rintro ⟨h1, h2⟩
    rw [hd]
    unfold targetDims maxDimension
    rw [if_neg]
    push_neg
    exact ⟨h1, h2⟩
  · rintro ⟨h1, h2⟩
    rw [hd]
    unfold targetDims maxDimension
    rw [if_pos (Or.inl h1)]
    rcases lt_or_eq_of_le h2 with hlt | heq
    · rw [if_pos hlt]
    · subst heq
      rw [if_neg (lt_irrefl h)]
      have h0 : h ≠ 0 := by positivity
      have hq : h * 1024 / h = (1024 : ℚ) := by
        field_simp
      have hj : jsRound (1024 : ℚ) = (1024 : ℤ) := by
        have : ((1024 : ℚ)) = (((1024 : ℤ) : ℚ)) := by norm_num
        rw [this, jsRound_coe 1024]
      rw [hq, hj]
      norm_num
  · rintro ⟨h1, h2⟩
    rw [hd]
    unfold targetDims maxDimension
    rw [if_pos (Or.inr h1), if_neg (not_lt.mpr h2)]

/-- Witness for C2: a 2048 × 1024 display surface exports at 1024 × 512. -/
theorem c2_export_dimensions_witness :
    getCanvasDataDims stBig = some (1024, 512) := by
  have h := (c2_export_dimensions stBig ⟨2048, 1024, 0, 0, [ppW]⟩ rfl rfl 2048 1024
    (by norm_num [effDpr, stBig]) (by norm_num [effDpr, stBig])).2.1
    ⟨by norm_num, by norm_num⟩
  rw [h]
  norm_num [jsRound]

lemma clearCanvas_some (st : CanvasState) (cv : CanvasEl) (c : Ctx2D)
    (hc : st.canvas = some cv) (hctx : st.context = some c) :
    clearCanvas st =
      { st with
          canvas := some { cv with
            buffer := clearRect c.scale 0 0 (cv.width / effDpr st) (cv.height / effDpr st)
              cv.buffer },
          isCanvasEmpty := true } := by
  unfold clearCanvas
  rw [hc, hctx]

/-- Claim C5: clearing erases every inked pixel of the whole backing
buffer (through the DPR-compensating rectangle and the context's scale),
resets the "has ink" flag so the next export yields "no data", and is a
state-preserving no-op on an already-empty surface. -/
theorem c5_clear_resets (st : CanvasState) (cv : CanvasEl) (c : Ctx2D)
    (hc : st.canvas = some cv) (hctx : st.context = some c) (hs : c.scale = effDpr st) :
    (∀ pp ∈ bufferOf (clearCanvas st),
      ¬(0 ≤ pp.pos.1 ∧ pp.pos.1 < cv.width ∧ 0 ≤ pp.pos.2 ∧ pp.pos.2 < cv.height)) ∧
    (clearCanvas st).isCanvasEmpty = true ∧
    (∀ (avail : Bool) (encodePNG : ((ℚ × ℚ) → RGBA) → String) (sample : (ℚ × ℚ) → RGBA),
      getCanvasData avail encodePNG sample (clearCanvas st) = none) ∧
    (st.isCanvasEmpty = true → cv.buffer = [] → clearCanvas st = st) := by
  have hcc := clearCanvas_some st cv c hc hctx
  have hscale : ∀ q : ℚ, c.scale * (0 + q / effDpr st) = q := by
    intro q
    rw [hs, zero_add, mul_comm, div_mul_cancel₀ _ (effDpr_ne_zero st)]
  refine ⟨?_, ?_, ?_, ?_⟩
  · intro pp hpp
    rw [hcc] at hpp
    simp only [bufferOf] at hpp
    unfold clearRect at hpp
    rw [List.mem_filter] at hpp
    obtain ⟨-, hpred⟩ := hpp
    simp only [Bool.not_eq_true', decide_eq_false_iff_not] at hpred
    rintro ⟨h1, h2, h3, h4⟩
    apply hpred
    refine ⟨?_, ?_, ?_, ?_⟩
    · rw [mul_zero]; exact h1
    · rw [hscale]; exact h2
    · rw [mul_zero]; exact h3
    · rw [hscale]; exact h4
  · rw [hcc]
  · intro avail encodePNG sample
    apply getCanvasData_of_empty
    rw [hcc]
  · intro hE hB
    rw [hcc]
    obtain ⟨cvo, ctxo, isD, isE, dpr⟩ := st
    simp only at hc hE
    subst hc
    obtain ⟨cw, ch, cl, ct, cb⟩ := cv
    simp only at hB
    subst hB
    subst hE
    simp [clearRect]

/-- Witness for C5 at a concrete inked state. -/
theorem c5_clear_resets_witness : (clearCanvas stInk).isCanvasEmpty = true :=
  (c5_clear_resets stInk cvInk ctxW rfl rfl rfl).2.1

/-- Claim C1: the relay answers 200 with the model's text on success and
500 with the fault's message on a thrown fault, making exactly one
upstream call (no retry) either way. -/
theorem c1_relay_response (generateContent : String → Except String String)
    (prompt m s : String) :
    (generateContent prompt = Except.error m →
      apiGenerate generateContent prompt = (⟨500, RelayBody.error m⟩, [prompt])) ∧
    (generateContent prompt = Except.ok s →
      apiGenerate generateContent prompt = (⟨200, RelayBody.output s⟩, [prompt])) := by
  constructor
  · intro h
    simp [apiGenerate, h]
  · intro h
    simp [apiGenerate, h]

/-- Witness for C1: the spec's scenario, prompt "foo" against an upstream
throwing `Error("quota exceeded")`. -/
theorem c1_relay_response_witness :
    apiGenerate quotaFail "foo" = (⟨500, RelayBody.error "quota exceeded"⟩, ["foo"]) :=
  (c1_relay_response quotaFail "foo" "quota exceeded" "").1 rfl

lemma step_noCtx (e : PEvent) (st : CanvasState) (h : st.context = none) :
    step e st = st := by
  obtain ⟨cvo, ctxo, d, em, dp⟩ := st
  cases ctxo with
  | some c => simp at h
  | none =>
    cases e with
    | down input => rfl
    | move input =>
      show draw input _ = _
      unfold draw
      split <;> rfl
    | up => rfl
    | leave => rfl
    | cancel => rfl

lemma runEvents_noCtx (es : List PEvent) : ∀ st : CanvasState, st.context = none →
    runEvents es st = st := by
  induction es with
  | nil => intro st _; rfl
  | cons e es ih =>
    intro st h
    have hrun : runEvents (e :: es) st = runEvents es (step e st) := rfl
    rw [hrun, step_noCtx e st h, ih st h]

lemma step_context_isSome (e : PEvent) (st : CanvasState) :
    (step e st).context.isSome = st.context.isSome := by
  obtain ⟨cvo, ctxo, d, em, dp⟩ := st
  cases ctxo with
  | none => rw [step_noCtx e _ rfl]
  | some c =>
    cases e with
    | down input => rfl
    | move input =>
      show (draw input _).context.isSome = _
      unfold draw
      split <;> rfl
    | up => rfl
    | leave => rfl
    | cancel => rfl

lemma step_canvas_isSome (e : PEvent) (st : CanvasState) :
    (step e st).canvas.isSome = st.canvas.isSome := by
  obtain ⟨cvo, ctxo, d, em, dp⟩ := st
  cases ctxo with
  | none => rw [step_noCtx e _ rfl]
  | some c =>
    cases e with
    | down input => rfl
    | move input =>
      show (draw input _).canvas.isSome = _
      unfold draw
      split
      · rfl
      · cases cvo <;> rfl
    | up => rfl
    | leave => rfl
    | cancel => rfl

lemma runEvents_context_isSome (es : List PEvent) : ∀ st : CanvasState,
    (runEvents es st).context.isSome = st.context.isSome := by
  induction es with
  | nil => intro st; rfl
  | cons e es ih =>
    intro st
    have hrun : runEvents (e :: es) st = runEvents es (step e st) := rfl
    rw [hrun, ih (step e st), step_context_isSome]

lemma runEvents_canvas_isSome (es : List PEvent) : ∀ st : CanvasState,
    (runEvents es st).canvas.isSome = st.canvas.isSome := by
  induction es with
  | nil => intro st; rfl
  | cons e es ih =>
    intro st
    have hrun : runEvents (e :: es) st = runEvents es (step e st) := rfl
    rw [hrun, ih (step e st), step_canvas_isSome]

lemma startDrawing_isCanvasEmpty (input : PointerInput) (st : CanvasState) :
    (startDrawing input st).isCanvasEmpty = st.isCanvasEmpty := by
  unfold startDrawing
  cases st.context <;> rfl

lemma stopDrawing_isCanvasEmpty (st : CanvasState) :
    (stopDrawing st).isCanvasEmpty = st.isCanvasEmpty := by
  unfold stopDrawing
  cases st.context <;> rfl

lemma draw_isCanvasEmpty (input : PointerInput) (st : CanvasState) :
    (draw input st).isCanvasEmpty
      = (st.isCanvasEmpty && !(st.isDrawing && st.context.isSome)) := by
  unfold draw
  split
  · rename_i hD
    rw [hD]
    simp
  · rename_i hD
    have hD2 : st.isDrawing = true := by
      cases hb : st.isDrawing
      · exact absurd hb hD
      · rfl
    cases hc : st.context with
    | none => simp [hD2]
    | some c => simp [hD2]

lemma step_inv (e : PEvent) (st : CanvasState)
    (h : st.isDrawing = true → st.context.isSome = true) :
    (step e st).isDrawing = true → (step e st).context.isSome = true := by
  cases e with
  | down input =>
    show (startDrawing input st).isDrawing = true → (startDrawing input st).context.isSome = true
    unfold startDrawing
    cases hc : st.context with
    | none => exact h
    | some c => intro _; rfl
  | move input =>
    show (draw input st).isDrawing = true → (draw input st).context.isSome = true
    unfold draw
    split
    · exact h
    · cases hc : st.context with
      | none => exact h
      | some c => intro _; rfl
  | up =>
    show (stopDrawing st).isDrawing = true → (stopDrawing st).context.isSome = true
    unfold stopDrawing
    cases hc : st.context with
    | none => exact h
    | some c => simp
  | leave =>
    show (stopDrawing st).isDrawing = true → (stopDrawing st).context.isSome = true
    unfold stopDrawing
    cases hc : st.context with
    | none => exact h
    | some c => simp
  | cancel =>
    show (stopDrawing st).isDrawing = true → (stopDrawing st).context.isSome = true
    unfold stopDrawing
    cases hc : st.context with
    | none => exact h
    | some c => simp

lemma run_empty_eq (es : List PEvent) : ∀ st : CanvasState,
    (st.isDrawing = true → st.context.isSome = true) →
    (runEvents es st).isCanvasEmpty = (st.isCanvasEmpty && !movedWhileActive st es) := by
  induction es with
  | nil =>
    intro st _
    simp [runEvents, movedWhileActive]
  | cons e es ih =>
    intro st h
    have hrun : runEvents (e :: es) st = runEvents es (step e st) := rfl
    have hmov : movedWhileActive st (e :: es)
        = ((isMoveEvent e && st.isDrawing) || movedWhileActive (step e st) es) := rfl
    rw [hrun, hmov, ih (step e st) (step_inv e st h)]
    cases e with
    | down input =>
      simp only [step, startDrawing_isCanvasEmpty, isMoveEvent]
      simp
    | up =>
      simp only [step, stopDrawing_isCanvasEmpty, isMoveEvent]
      simp
    | leave =>
      simp only [step, stopDrawing_isCanvasEmpty, isMoveEvent]
      simp
    | cancel =>
      simp only [step, stopDrawing_isCanvasEmpty, isMoveEvent]
      simp
    | move input =>
      simp only [step, draw_isCanvasEmpty, isMoveEvent, Bool.true_and]
      cases hD : st.isDrawing with
      | false => simp
      | true =>
        have hS : st.context.isSome = true := h hD
        simp [hS]

/-- Claim C4: from a freshly mounted surface, after any pointer-event
sequence the "has ink" flag is set iff some move event was delivered while
drawing was active; a move without active drawing is a no-op and
up/leave/cancel never touch the flag. -/
theorem c4_has_ink_iff (st : CanvasState) (hD : st.isDrawing = false)
    (hE : st.isCanvasEmpty = true) (es : List PEvent) :
    ((runEvents es st).isCanvasEmpty = false ↔ movedWhileActive st es = true) ∧
    (∀ (input : PointerInput) (st2 : CanvasState), st2.isDrawing = false →
      draw input st2 = st2) ∧
    (∀ st2 : CanvasState, (stopDrawing st2).isCanvasEmpty = st2.isCanvasEmpty) := by
  refine ⟨?_, ?_, stopDrawing_isCanvasEmpty⟩
  · have hinv : st.isDrawing = true → st.context.isSome = true := by
      simp [hD]
    rw [run_empty_eq es st hinv, hE]
    cases movedWhileActive st es <;> simp
  · intro input st2 h2
    unfold draw
    rw [if_pos h2]

/-- Witness for C4: one complete stroke on a fresh surface sets the flag. -/
theorem c4_has_ink_iff_witness : (runEvents esW stW).isCanvasEmpty = false :=
  (c4_has_ink_iff stW rfl rfl esW).1.mpr (by decide)

/-- Claim C7, counterexample: on the concrete mid-stroke state `stMid`,
position (1, 1) already carries white ink.  After the style props change
to red with width 7, the very next move re-strokes the whole current path
— `stroke()` strokes everything since `beginPath()` with the style current
at the call — so the ink already rasterized at (1, 1) turns red; the same
move without the style change leaves it white.  The claim's "never applied
retroactively to ink already rasterized" is therefore false on the code. -/
theorem c7_retroactive_restroke_counterexample :
    visibleColorAt stMid (1, 1) = some "#FFFFFF" ∧
    visibleColorAt (step (.move (.mouse 3 3)) (styleUpdate "#FF0000" 7 stMid)) (1, 1)
      = some "#FF0000" ∧
    visibleColorAt (step (.move (.mouse 3 3)) stMid) (1, 1) = some "#FFFFFF" := by
  refine ⟨?_, ?_, ?_⟩ <;>
    norm_num [visibleColorAt, firstColorAt, stMid, runEvents, step, startDrawing, draw,
      styleUpdate, getCoords, paintPath, bufferOf, stW, cvW, ctxW]

/-- Claim C7 (amended): a style-prop change writes the new colour and
width into the live context at once and itself repaints no rasterized
ink; a stroke begun after the change paints only samples carrying the new
style and leaves all previously rasterized ink untouched.  (Per the
counterexample, ink of a stroke still in progress at the change is
re-stroked in the new style on the next move; ink of strokes completed
before the change is never repainted.) -/
theorem c7_style_update (st : CanvasState) (c : Ctx2D) (hctx : st.context = some c)
    (color : String) (lineWidth : ℚ) :
    (styleUpdate color lineWidth st).context
      = some { c with strokeStyle := color, lineWidth := lineWidth } ∧
    bufferOf (styleUpdate color lineWidth st) = bufferOf st ∧
    (∀ (i1 i2 : PointerInput) (cv : CanvasEl), st.canvas = some cv →
      ∃ newPts : List PaintedPoint,
        bufferOf (step (.move i2) (step (.down i1) (styleUpdate color lineWidth st)))
          = newPts ++ bufferOf st ∧
        ∀ pp ∈ newPts, pp.color = color ∧ pp.width = lineWidth) := by
  have hsu : styleUpdate color lineWidth st
      = { st with context := some { c with strokeStyle := color, lineWidth := lineWidth } } := by
    unfold styleUpdate
    rw [hctx]
  refine ⟨?_, ?_, ?_⟩
  · rw [hsu]
  · rw [hsu]; rfl
  · intro i1 i2 cv hcv
    rw [hsu]
    refine ⟨[⟨(c.scale * (getCoords st.canvas i2).1, c.scale * (getCoords st.canvas i2).2),
              color, lineWidth⟩,
             ⟨(c.scale * (getCoords st.canvas i1).1, c.scale * (getCoords st.canvas i1).2),
              color, lineWidth⟩], ?_, ?_⟩
    · simp [step, startDrawing, draw, paintPath, bufferOf, hcv]
    · intro pp hpp
      simp only [List.mem_cons, List.not_mem_nil, or_false] at hpp
      rcases hpp with rfl | rfl
      · exact ⟨rfl, rfl⟩
      · exact ⟨rfl, rfl⟩

/-- Witness for C7 (amended): changing colour and width on a mounted
surface updates the live context at once. -/
theorem c7_style_update_witness :
    (styleUpdate "#FF0000" 7 stW).context = some ⟨1, "#FF0000", 7, "round", "round", []⟩ := by
  exact (c7_style_update stW ctxW rfl "#FF0000" 7).1

lemma clearCanvas_noCtx (st : CanvasState) (h : st.context = none) : clearCanvas st = st := by
  obtain ⟨cvo, ctxo, d, em, dp⟩ := st
  cases ctxo with
  | none => cases cvo <;> rfl
  | some c => simp at h

lemma clearCanvas_noCanvas (st : CanvasState) (h : st.canvas = none) : clearCanvas st = st := by
  obtain ⟨cvo, ctxo, d, em, dp⟩ := st
  cases cvo with
  | none => cases ctxo <;> rfl
  | some cv => simp at h

lemma getCanvasData_of_noCanvas (avail : Bool) (encodePNG : ((ℚ × ℚ) → RGBA) → String)
    (sample : (ℚ × ℚ) → RGBA) (st : CanvasState) (h : st.canvas = none) :
    getCanvasData avail encodePNG sample st = none := by
  unfold getCanvasData
  rw [h]
  split <;> rfl

/-- Claim C9: with no rendering context, every pointer handler, the style
effect and the clear operation leave the state unchanged; an export whose
temp canvas yields no context returns null; and a mount whose `getContext`
yields nothing stores no context.  All operations are total functions, so
none can raise a fault. -/
theorem c9_no_context_silent (st : CanvasState) (h : st.context = none) :
    (∀ e : PEvent, step e st = st) ∧
    (∀ (color : String) (lineWidth : ℚ), styleUpdate color lineWidth st = st) ∧
    clearCanvas st = st ∧
    (∀ (encodePNG : ((ℚ × ℚ) → RGBA) → String) (sample : (ℚ × ℚ) → RGBA)
      (st2 : CanvasState), getCanvasData false encodePNG sample st2 = none) ∧
    (∀ (canvasPresent : Bool) (rw2 rh2 rl2 rt2 dpr2 : ℚ),
      (mount canvasPresent rw2 rh2 rl2 rt2 dpr2 false).context = none) := by
  refine ⟨fun e => step_noCtx e st h, ?_, clearCanvas_noCtx st h, ?_, ?_⟩
  · intro color lineWidth
    unfold styleUpdate
    rw [h]
  · intro encodePNG sample st2
    unfold getCanvasData
    split
    · rfl
    · cases st2.canvas <;> rfl
  · intro canvasPresent rw2 rh2 rl2 rt2 dpr2
    unfold mount
    split <;> rfl

/-- Witness for C9 at a concrete context-less state. -/
theorem c9_no_context_silent_witness : clearCanvas stNoCtx = stNoCtx :=
  (c9_no_context_silent stNoCtx rfl).2.2.1

/-- Claim C10: unresolvable coordinates (no canvas element, or a touch
event with no touch points) translate to the origin, so a down event in
that state begins the path at (0, 0) and an active move paints at the
device-space origin. -/
theorem c10_unresolved_coords_origin :
    (∀ input : PointerInput, getCoords none input = (0, 0)) ∧
    (∀ cv : CanvasEl, getCoords (some cv) (.touch []) = (0, 0)) ∧
    (∀ (st : CanvasState) (c : Ctx2D), st.context = some c →
      step (.down (.touch [])) st
        = { st with context := some { c with path := [(0, 0)] }, isDrawing := true }) ∧
    (∀ (st : CanvasState) (c : Ctx2D) (cv : CanvasEl), st.context = some c →
      st.canvas = some cv → st.isDrawing = true →
      (step (.move (.touch [])) st).context = some { c with path := (0, 0) :: c.path } ∧
      bufferOf (step (.move (.touch [])) st)
        = ⟨(0, 0), c.strokeStyle, c.lineWidth⟩
            :: ((c.path.map fun q =>
                  (⟨(c.scale * q.1, c.scale * q.2), c.strokeStyle, c.lineWidth⟩ : PaintedPoint))
              ++ bufferOf st)) := by
  refine ⟨fun input => rfl, fun cv => rfl, ?_, ?_⟩
  · intro st c hctx
    show startDrawing (.touch []) st = _
    unfold startDrawing
    rw [hctx]
    cases st.canvas <;> rfl
  · intro st c cv hctx hcv hD
    constructor
    · show (draw (.touch []) st).context = _
      simp [draw, hD, hctx, hcv, getCoords]
    · show bufferOf (draw (.touch []) st) = _
      simp [draw, hD, hctx, hcv, bufferOf, paintPath, getCoords]

/-- Witness for C10: a zero-touch event on a concrete canvas maps to the
origin. -/
theorem c10_unresolved_coords_origin_witness :
    getCoords (some cvW) (PointerInput.touch []) = (0, 0) :=
  c10_unresolved_coords_origin.2.1 cvW

/-- Claim C6: every successful export string carries the fixed PNG
data-URL head; the temp canvas is painted by the black full-target fill
first and the source composite second; and each target pixel ends fully
opaque — the source sample composited over opaque black. -/
theorem c6_export_black_fill (encodePNG : ((ℚ × ℚ) → RGBA) → String)
    (sample : (ℚ × ℚ) → RGBA) (st : CanvasState) (s : String)
    (h : getCanvasData true encodePNG sample st = some s) :
    (∃ payload, s = "data:image/png;base64," ++ payload) ∧
    (∀ tw th : ℚ, exportOps tw th = [DrawOp.fillRect 0 0 tw th, DrawOp.drawImage tw th]) ∧
    (∀ (tw th : ℚ) (p : ℚ × ℚ), inRect 0 0 tw th p = true →
      tempCanvasImage sample tw th p = srcOver (sample p) (srcOver opaqueBlack transparent) ∧
      (tempCanvasImage sample tw th p).a = 1) := by
  refine ⟨?_, fun tw th => rfl, ?_⟩
  · unfold getCanvasData at h
    split at h
    · exact Option.noConfusion h
    · cases hcv : st.canvas with
      | none => rw [hcv] at h; exact Option.noConfusion h
      | some cv =>
        rw [hcv] at h
        simp at h
        exact ⟨_, h.symm⟩
  · intro tw th p hp
    have himg : tempCanvasImage sample tw th p
        = srcOver (sample p) (srcOver opaqueBlack transparent) := by
      simp [tempCanvasImage, renderOps, exportOps, applyOp, hp]
    refine ⟨himg, ?_⟩
    rw [himg]
    simp [srcOver, opaqueBlack, transparent]

/-- Witness for C6: the concrete inked export leaves a fully opaque pixel
at an interior point. -/
theorem c6_export_black_fill_witness : (tempCanvasImage sampleW 100 100 ptW).a = 1 :=
  ((c6_export_black_fill encW sampleW stInk sInk (by rfl)).2.2 100 100 ptW
    (by norm_num [inRect, ptW])).2

lemma clearCanvas_empty_of_some (st : CanvasState) (cv : CanvasEl) (c : Ctx2D)
    (hc : st.canvas = some cv) (hctx : st.context = some c) :
    (clearCanvas st).isCanvasEmpty = true := by
  rw [clearCanvas_some st cv c hc hctx]

lemma export_after_clear_run (es : List PEvent) (st : CanvasState)
    (hE : st.isCanvasEmpty = true) (avail : Bool)
    (encodePNG : ((ℚ × ℚ) → RGBA) → String) (sample : (ℚ × ℚ) → RGBA) :
    getCanvasData avail encodePNG sample (clearCanvas (runEvents es st)) = none := by
  cases hctx : st.context with
  | none =>
    rw [runEvents_noCtx es st hctx, clearCanvas_noCtx st hctx]
    exact getCanvasData_of_empty avail encodePNG sample st hE
  | some c =>
    have hrc : (runEvents es st).context.isSome = true := by
      rw [runEvents_context_isSome, hctx]
      rfl
    cases hcv2 : (runEvents es st).canvas with
    | none =>
      rw [clearCanvas_noCanvas _ hcv2]
      exact getCanvasData_of_noCanvas avail encodePNG sample _ hcv2
    | some cv2 =>
      obtain ⟨c2, hc2⟩ := Option.isSome_iff_exists.mp hrc
      apply getCanvasData_of_empty
      exact clearCanvas_empty_of_some _ cv2 c2 hcv2 hc2

/-- Claim C8: generating with no ink shows the empty-canvas message and
issues no network request, and draw-then-clear-then-generate behaves
identically to never having drawn. -/
theorem c8_empty_canvas_generate (st : CanvasState) (hE : st.isCanvasEmpty = true)
    (es : List PEvent) (avail : Bool) (encodePNG : ((ℚ × ℚ) → RGBA) → String)
    (sample : (ℚ × ℚ) → RGBA) :
    handleGenerate true (getCanvasData avail encodePNG sample (clearCanvas (runEvents es st)))
      = GenOutcome.showError "The canvas is empty. Draw something first!" ∧
    handleGenerate true (getCanvasData avail encodePNG sample (clearCanvas (runEvents es st)))
      = handleGenerate true (getCanvasData avail encodePNG sample st) ∧
    (∀ payload : String,
      handleGenerate true (getCanvasData avail encodePNG sample (clearCanvas (runEvents es st)))
        ≠ GenOutcome.request payload) := by
  have h1 := export_after_clear_run es st hE avail encodePNG sample
  have h2 := getCanvasData_of_empty avail encodePNG sample st hE
  rw [h1, h2]
  refine ⟨rfl, rfl, ?_⟩
  intro payload
  simp [handleGenerate]

/-- Witness for C8: a stroke followed by clear followed by generate on the
concrete fresh state shows the empty-canvas message. -/
theorem c8_empty_canvas_generate_witness :
    handleGenerate true (getCanvasData true encW sampleW (clearCanvas (runEvents esW stW)))
      = GenOutcome.showError "The canvas is empty. Draw something first!" :=
  (c8_empty_canvas_generate stW rfl esW true encW sampleW).1

end FantasyDraw
